import Mathlib

/-!
Shallow embedding of the DF-Pong "Folding Pocket" light-sensor controller
(`DFpong_controller_Folding_Pocket.ino`).

The program keeps, per light-sensor channel, a 10-entry circular buffer of
raw readings together with a running sum (`lightTotalValue1/2`), a shared
write cursor (`lightReadIndex`), the two smoothed averages, the current
movement code (0 = neutral, 1 = up, 2 = down) and the timestamp of the last
serviced read.  `handleInput` is gated on 50 ms of elapsed `millis()` time,
computed with unsigned 32-bit subtraction; when serviced it feeds the two raw
readings through `updateLightAverage` and classifies the difference of the
smoothed values against a dead-band threshold of 50.

C++ `int`/`long` arithmetic is modelled on `Int` (signed overflow being
undefined behaviour in the source language, the mathematical integers are the
faithful total model); the C++ `/` on these signed operands truncates toward
zero, which is `Int.tdiv`.  The `unsigned long` timestamps of `millis()` are
modelled as naturals reduced modulo `2 ^ 32`, with `usub32` embedding the
defined wrap-around semantics of unsigned subtraction.  Hardware calls
(`analogRead`, `millis`) become explicit arguments of `handleInput`, exactly
as the spec's `tick(now, raw_left, raw_right)` boundary describes.
-/

/-- Machine width of `unsigned long` on the target (32 bits). -/
def UINT32 : Nat := 2 ^ 32

/-- C `unsigned long` subtraction `a - b`: wraps modulo `2^32`. -/
def usub32 (a b : Nat) : Nat := (a % UINT32 + UINT32 - b % UINT32) % UINT32

/-- `const int lightAverageWindow = 10;` (number of samples in the window). -/
def lightAverageWindow : Nat := 10

/-- `const int equalityThreshold = 50;` (dead-band threshold). -/
def equalityThreshold : Int := 50

/-- `unsigned int lightReadInterval = 50;` (minimum ms between reads). -/
def lightReadInterval : Nat := 50

/-- The mutable globals of the sketch that the core logic reads or writes. -/
@[ext]
structure ControllerState where
  currentMovement : Int
  lightValue1 : Int
  lightValue2 : Int
  smoothedLight1 : Int
  smoothedLight2 : Int
  lastLightReadTime : Nat
  lightReadings1 : List Int
  lightReadings2 : List Int
  lightReadIndex : Nat
  lightTotalValue1 : Int
  lightTotalValue2 : Int
  deriving Repr, DecidableEq

/-- `initializeLightAverage()`: zero-fills both arrays, resets both running
totals and the shared index. -/
def initializeLightAverage (s : ControllerState) : ControllerState :=
  { s with
    lightReadings1 := List.replicate lightAverageWindow 0
    lightReadings2 := List.replicate lightAverageWindow 0
    lightTotalValue1 := 0
    lightTotalValue2 := 0
    lightReadIndex := 0 }

/-- The global state after C++ static initialization followed by `setup()`
(global ints and longs start at zero; `setup` calls `initializeLightAverage`). -/
def initialState : ControllerState :=
  initializeLightAverage
    { currentMovement := 0
      lightValue1 := 0
      lightValue2 := 0
      smoothedLight1 := 0
      smoothedLight2 := 0
      lastLightReadTime := 0
      lightReadings1 := []
      lightReadings2 := []
      lightReadIndex := 0
      lightTotalValue1 := 0
      lightTotalValue2 := 0 }

/-- `updateLightAverage(newValue1, newValue2)`: for each channel, subtract the
entry under the cursor from the running total, overwrite it with the new
value, add the new value to the total; then advance the shared cursor modulo
the window size and recompute both smoothed values by integer division. -/
def updateLightAverage (s : ControllerState) (newValue1 newValue2 : Int) :
    ControllerState :=
  let t1 := s.lightTotalValue1 - s.lightReadings1.getD s.lightReadIndex 0 + newValue1
  let r1 := s.lightReadings1.set s.lightReadIndex newValue1
  let t2 := s.lightTotalValue2 - s.lightReadings2.getD s.lightReadIndex 0 + newValue2
  let r2 := s.lightReadings2.set s.lightReadIndex newValue2
  { s with
    lightReadings1 := r1
    lightReadings2 := r2
    lightTotalValue1 := t1
    lightTotalValue2 := t2
    lightReadIndex := (s.lightReadIndex + 1) % lightAverageWindow
    smoothedLight1 := Int.tdiv t1 (lightAverageWindow : Int)
    smoothedLight2 := Int.tdiv t2 (lightAverageWindow : Int) }

/-- `handleInput()`: `now` is the value of `millis()` and `raw1`, `raw2` the
values `analogRead` would deliver on this pass.  If less than
`lightReadInterval` ms elapsed (unsigned subtraction) nothing happens;
otherwise the raw values are stored, fed through `updateLightAverage`, the
movement is classified from the smoothed values, and the timestamp updated. -/
def handleInput (s : ControllerState) (now : Nat) (raw1 raw2 : Int) :
    ControllerState :=
  if lightReadInterval ≤ usub32 now s.lastLightReadTime then
    let s1 := { s with lightValue1 := raw1, lightValue2 := raw2 }
    let s2 := updateLightAverage s1 raw1 raw2
    let difference : Int := |s2.smoothedLight1 - s2.smoothedLight2|
    let mv : Int :=
      if difference ≤ equalityThreshold then 0
      else if s2.smoothedLight1 > s2.smoothedLight2 then 1
      else 2
    { s2 with currentMovement := mv, lastLightReadTime := now }
  else s

/-- A tick at time `now` is serviced exactly when the gate of `handleInput`
passes. -/
def servicedAt (s : ControllerState) (now : Nat) : Prop :=
  lightReadInterval ≤ usub32 now s.lastLightReadTime

instance (s : ControllerState) (now : Nat) : Decidable (servicedAt s now) :=
  inferInstanceAs (Decidable (_ ≤ _))

/-- Iterated insertion: feed a list of raw sample pairs through
`updateLightAverage`, oldest first. -/
def insertSeq (s : ControllerState) (l : List (Int × Int)) : ControllerState :=
  l.foldl (fun t p => updateLightAverage t p.1 p.2) s

/-- Channel-1 buffer contents in temporal order (oldest sample first):
the circular buffer read starting at the cursor. -/
def rot1 (s : ControllerState) : List Int :=
  s.lightReadings1.drop s.lightReadIndex ++ s.lightReadings1.take s.lightReadIndex

/-- Channel-2 buffer contents in temporal order (oldest sample first). -/
def rot2 (s : ControllerState) : List Int :=
  s.lightReadings2.drop s.lightReadIndex ++ s.lightReadings2.take s.lightReadIndex

/-- Structural well-formedness: both buffers hold exactly `lightAverageWindow`
entries and the shared cursor is in range. -/
def WinInv (s : ControllerState) : Prop :=
  s.lightReadings1.length = lightAverageWindow ∧
  s.lightReadings2.length = lightAverageWindow ∧
  s.lightReadIndex < lightAverageWindow

instance (s : ControllerState) : Decidable (WinInv s) :=
  inferInstanceAs (Decidable (_ ∧ _ ∧ _))

/-- Full filter invariant: well-formed, and each running total equals the
exact sum of its buffer's contents. -/
def filterInv (s : ControllerState) : Prop :=
  WinInv s ∧
  s.lightTotalValue1 = s.lightReadings1.sum ∧
  s.lightTotalValue2 = s.lightReadings2.sum

instance (s : ControllerState) : Decidable (filterInv s) :=
  inferInstanceAs (Decidable (_ ∧ _ ∧ _))

/-- A state whose two buffers are constantly `a` and `b`, with consistent
totals and smoothed values; inserting `(a, b)` keeps the smoothed pair at
`(a, b)`. -/
def constState (a b : Int) : ControllerState :=
  { currentMovement := 0
    lightValue1 := 0
    lightValue2 := 0
    smoothedLight1 := a
    smoothedLight2 := b
    lastLightReadTime := 0
    lightReadings1 := List.replicate lightAverageWindow a
    lightReadings2 := List.replicate lightAverageWindow b
    lightReadIndex := 0
    lightTotalValue1 := (lightAverageWindow : Int) * a
    lightTotalValue2 := (lightAverageWindow : Int) * b }

/-- One independent single-channel rolling-average filter, following the
spec's per-channel contract (buffer, running sum, cursor, smoothed output). -/
structure ChannelFilter where
  readings : List Int
  total : Int
  index : Nat
  smoothed : Int
  deriving Repr, DecidableEq

/-- The spec's per-channel `insert`: subtract the cursor entry from the sum,
overwrite it, add the new sample, advance the cursor modulo the window,
return the truncated average. -/
def ChannelFilter.insert (f : ChannelFilter) (v : Int) : ChannelFilter :=
  let t := f.total - f.readings.getD f.index 0 + v
  { readings := f.readings.set f.index v
    total := t
    index := (f.index + 1) % lightAverageWindow
    smoothed := Int.tdiv t (lightAverageWindow : Int) }

/-- Projection of the shared-cursor state onto channel 1 as a standalone
filter. -/
def chan1 (s : ControllerState) : ChannelFilter :=
  { readings := s.lightReadings1
    total := s.lightTotalValue1
    index := s.lightReadIndex
    smoothed := s.smoothedLight1 }

/-- Projection of the shared-cursor state onto channel 2 as a standalone
filter. -/
def chan2 (s : ControllerState) : ChannelFilter :=
  { readings := s.lightReadings2
    total := s.lightTotalValue2
    index := s.lightReadIndex
    smoothed := s.smoothedLight2 }

/-! Helper lemmas about lists, the rotation view, and single updates. -/

theorem sum_set_sub_add (l : List Int) (i : Nat) (v : Int) (h : i < l.length) :
    (l.set i v).sum = l.sum - l.getD i 0 + v := by
  rw [List.sum_set, List.getD_eq_getElem l 0 h, if_pos h]
  have hsplit := List.sum_take_add_sum_drop l i
  rw [List.drop_eq_getElem_cons h, List.sum_cons] at hsplit
  omega

theorem rot1_length (s : ControllerState) :
    (rot1 s).length = s.lightReadings1.length := by
  simp only [rot1, List.length_append, List.length_drop, List.length_take]
  omega

theorem rot2_length (s : ControllerState) :
    (rot2 s).length = s.lightReadings2.length := by
  simp only [rot2, List.length_append, List.length_drop, List.length_take]
  omega

theorem getD_zero_cons (l : List Int) (h : 0 < l.length) :
    l = l.getD 0 0 :: l.drop 1 := by
  cases l with
  | nil => simp at h
  | cons a t => rfl

theorem rot1_getD_zero (s : ControllerState) (h : WinInv s) :
    (rot1 s).getD 0 0 = s.lightReadings1.getD s.lightReadIndex 0 := by
  obtain ⟨h1, h2, hi⟩ := h
  unfold rot1
  rw [List.getD_append _ _ _ _ (by rw [List.length_drop]; omega)]
  rw [List.getD_eq_getElem _ 0 (by rw [List.length_drop]; omega),
    List.getD_eq_getElem _ _ (by omega), List.getElem_drop]
  simp

theorem rot2_getD_zero (s : ControllerState) (h : WinInv s) :
    (rot2 s).getD 0 0 = s.lightReadings2.getD s.lightReadIndex 0 := by
  obtain ⟨h1, h2, hi⟩ := h
  unfold rot2
  rw [List.getD_append _ _ _ _ (by rw [List.length_drop]; omega)]
  rw [List.getD_eq_getElem _ 0 (by rw [List.length_drop]; omega),
    List.getD_eq_getElem _ _ (by omega), List.getElem_drop]
  simp

theorem set_rot_step (b : List Int) (i : Nat) (v : Int)
    (hlen : b.length = lightAverageWindow) (hi : i < lightAverageWindow) :
    (b.set i v).drop ((i + 1) % lightAverageWindow) ++
      (b.set i v).take ((i + 1) % lightAverageWindow)
      = (b.drop i ++ b.take i).drop 1 ++ [v] := by
  have hset : b.set i v = b.take i ++ v :: b.drop (i + 1) := by
    rw [List.set_eq_take_append_cons_drop, if_pos (by omega)]
  have hRHS : (b.drop i ++ b.take i).drop 1 = b.drop (i + 1) ++ b.take i := by
    rw [List.drop_append_of_le_length (by rw [List.length_drop]; omega),
      List.drop_drop]
  rw [hRHS]
  rcases Nat.lt_or_ge (i + 1) lightAverageWindow with hlt | hge
  · rw [Nat.mod_eq_of_lt hlt, hset]
    rw [List.drop_append_eq_append_drop, List.take_append_eq_append_take]
    rw [List.drop_eq_nil_of_le (by rw [List.length_take]; omega)]
    rw [List.take_of_length_le (l := b.take i) (by rw [List.length_take]; omega)]
    have hlt' : (b.take i).length = i := by rw [List.length_take]; omega
    rw [hlt']
    have h1 : i + 1 - i = 1 := by omega
    rw [h1]
    simp [List.append_assoc]
  · have h10 : i + 1 = lightAverageWindow := by omega
    rw [h10, Nat.mod_self, List.drop_zero, List.take_zero, List.append_nil,
      hset, h10]
    rw [List.drop_eq_nil_of_le (by omega : b.length ≤ lightAverageWindow)]
    simp

theorem update_rot1 (s : ControllerState) (v1 v2 : Int) (h : WinInv s) :
    rot1 (updateLightAverage s v1 v2) = (rot1 s).drop 1 ++ [v1] := by
  obtain ⟨h1, h2, hi⟩ := h
  exact set_rot_step s.lightReadings1 s.lightReadIndex v1 h1 hi

theorem update_rot2 (s : ControllerState) (v1 v2 : Int) (h : WinInv s) :
    rot2 (updateLightAverage s v1 v2) = (rot2 s).drop 1 ++ [v2] := by
  obtain ⟨h1, h2, hi⟩ := h
  exact set_rot_step s.lightReadings2 s.lightReadIndex v2 h2 hi

theorem update_winInv (s : ControllerState) (v1 v2 : Int) (h : WinInv s) :
    WinInv (updateLightAverage s v1 v2) := by
  obtain ⟨h1, h2, hi⟩ := h
  refine ⟨?_, ?_, ?_⟩
  · simpa [updateLightAverage, List.length_set] using h1
  · simpa [updateLightAverage, List.length_set] using h2
  · exact Nat.mod_lt _ (by decide)

theorem filterInv_update (s : ControllerState) (v1 v2 : Int) (h : filterInv s) :
    filterInv (updateLightAverage s v1 v2) := by
  obtain ⟨hw, ht1, ht2⟩ := h
  obtain ⟨h1, h2, hi⟩ := hw
  refine ⟨update_winInv s v1 v2 ⟨h1, h2, hi⟩, ?_, ?_⟩
  · show s.lightTotalValue1 - s.lightReadings1.getD s.lightReadIndex 0 + v1
      = (s.lightReadings1.set s.lightReadIndex v1).sum
    rw [sum_set_sub_add _ _ _ (by omega)]
    omega
  · show s.lightTotalValue2 - s.lightReadings2.getD s.lightReadIndex 0 + v2
      = (s.lightReadings2.set s.lightReadIndex v2).sum
    rw [sum_set_sub_add _ _ _ (by omega)]
    omega

theorem insertSeq_cons (s : ControllerState) (p : Int × Int) (l : List (Int × Int)) :
    insertSeq s (p :: l) = insertSeq (updateLightAverage s p.1 p.2) l := rfl

theorem update_total1_eq (s : ControllerState) (v1 v2 : Int) :
    (updateLightAverage s v1 v2).lightTotalValue1
      = s.lightTotalValue1 - s.lightReadings1.getD s.lightReadIndex 0 + v1 := rfl

theorem update_total2_eq (s : ControllerState) (v1 v2 : Int) :
    (updateLightAverage s v1 v2).lightTotalValue2
      = s.lightTotalValue2 - s.lightReadings2.getD s.lightReadIndex 0 + v2 := rfl

theorem insertSeq_spec (l : List (Int × Int)) :
    ∀ s : ControllerState, WinInv s →
    WinInv (insertSeq s l) ∧
    rot1 (insertSeq s l) = (rot1 s ++ l.map Prod.fst).drop l.length ∧
    rot2 (insertSeq s l) = (rot2 s ++ l.map Prod.snd).drop l.length ∧
    (insertSeq s l).lightReadIndex
      = (s.lightReadIndex + l.length) % lightAverageWindow ∧
    (insertSeq s l).lightTotalValue1
      = s.lightTotalValue1 + (l.map Prod.fst).sum
        - ((rot1 s ++ l.map Prod.fst).take l.length).sum ∧
    (insertSeq s l).lightTotalValue2
      = s.lightTotalValue2 + (l.map Prod.snd).sum
        - ((rot2 s ++ l.map Prod.snd).take l.length).sum ∧
    (insertSeq s l).currentMovement = s.currentMovement ∧
    (insertSeq s l).lightValue1 = s.lightValue1 ∧
    (insertSeq s l).lightValue2 = s.lightValue2 ∧
    (insertSeq s l).lastLightReadTime = s.lastLightReadTime := by
  induction l with
  | nil =>
    intro s hW
    refine ⟨hW, by simp [insertSeq], by simp [insertSeq],
      by simp [insertSeq, Nat.mod_eq_of_lt hW.2.2],
      by simp [insertSeq], by simp [insertSeq], rfl, rfl, rfl, rfl⟩
  | cons p l ih =>
    intro s hW
    have hW' := update_winInv s p.1 p.2 hW
    obtain ⟨ihW, ihr1, ihr2, ihidx, iht1, iht2, ihm, ihv1, ihv2, ihlt⟩ :=
      ih (updateLightAverage s p.1 p.2) hW'
    have hr1len : (rot1 s).length = 10 := by rw [rot1_length, hW.1]; rfl
    have hr2len : (rot2 s).length = 10 := by rw [rot2_length, hW.2.1]; rfl
    have hcons1 : rot1 s = (rot1 s).getD 0 0 :: (rot1 s).drop 1 :=
      getD_zero_cons _ (by omega)
    have hcons2 : rot2 s = (rot2 s).getD 0 0 :: (rot2 s).drop 1 :=
      getD_zero_cons _ (by omega)
    have hrotstep1 := update_rot1 s p.1 p.2 hW
    have hrotstep2 := update_rot2 s p.1 p.2 hW
    have key1 : (rot1 s ++ (p.1 :: l.map Prod.fst)).drop ((p :: l).length)
        = ((rot1 (updateLightAverage s p.1 p.2) ++ l.map Prod.fst)).drop l.length := by
      rw [hrotstep1, List.length_cons,
        show l.length + 1 = 1 + l.length by omega, ← List.drop_drop,
        List.drop_append_of_le_length (by omega)]
      simp [List.append_assoc]
    have key2 : (rot2 s ++ (p.2 :: l.map Prod.snd)).drop ((p :: l).length)
        = ((rot2 (updateLightAverage s p.1 p.2) ++ l.map Prod.snd)).drop l.length := by
      rw [hrotstep2, List.length_cons,
        show l.length + 1 = 1 + l.length by omega, ← List.drop_drop,
        List.drop_append_of_le_length (by omega)]
      simp [List.append_assoc]
    have tkey1 : ((rot1 s ++ (p.1 :: l.map Prod.fst)).take ((p :: l).length)).sum
        = (rot1 s).getD 0 0
          + ((rot1 (updateLightAverage s p.1 p.2) ++ l.map Prod.fst).take l.length).sum := by
      rw [hrotstep1, List.length_cons]
      conv_lhs => rw [hcons1]
      rw [List.cons_append, List.take_succ_cons, List.sum_cons]
      simp [List.append_assoc]
    have tkey2 : ((rot2 s ++ (p.2 :: l.map Prod.snd)).take ((p :: l).length)).sum
        = (rot2 s).getD 0 0
          + ((rot2 (updateLightAverage s p.1 p.2) ++ l.map Prod.snd).take l.length).sum := by
      rw [hrotstep2, List.length_cons]
      conv_lhs => rw [hcons2]
      rw [List.cons_append, List.take_succ_cons, List.sum_cons]
      simp [List.append_assoc]
    refine ⟨ihW, ?_, ?_, ?_, ?_, ?_, ihm, ihv1, ihv2, ihlt⟩
    · rw [insertSeq_cons, ihr1, List.map_cons, key1]
    · rw [insertSeq_cons, ihr2, List.map_cons, key2]
    · rw [insertSeq_cons, ihidx]
      show ((s.lightReadIndex + 1) % lightAverageWindow + l.length) % lightAverageWindow
        = (s.lightReadIndex + (p :: l).length) % lightAverageWindow
      simp only [lightAverageWindow, List.length_cons]
      omega
    · rw [insertSeq_cons, iht1, List.map_cons, tkey1, update_total1_eq,
        ← rot1_getD_zero s hW, List.sum_cons]
      ring
    · rw [insertSeq_cons, iht2, List.map_cons, tkey2, update_total2_eq,
        ← rot2_getD_zero s hW, List.sum_cons]
      ring

theorem insertSeq_smoothed (l : List (Int × Int)) :
    ∀ s : ControllerState, l ≠ [] →
    (insertSeq s l).smoothedLight1
      = Int.tdiv (insertSeq s l).lightTotalValue1 (lightAverageWindow : Int) ∧
    (insertSeq s l).smoothedLight2
      = Int.tdiv (insertSeq s l).lightTotalValue2 (lightAverageWindow : Int) := by
  induction l with
  | nil => intro s h; exact absurd rfl h
  | cons p l ih =>
    intro s _
    cases l with
    | nil => exact ⟨rfl, rfl⟩
    | cons q m =>
      rw [insertSeq_cons]
      exact ih _ (by simp)

theorem readings1_eq_rot (s : ControllerState) (h : WinInv s) :
    s.lightReadings1
      = (rot1 s).drop (lightAverageWindow - s.lightReadIndex)
        ++ (rot1 s).take (lightAverageWindow - s.lightReadIndex) := by
  obtain ⟨h1, h2, hi⟩ := h
  unfold rot1
  have hd : (s.lightReadings1.drop s.lightReadIndex).length
      = lightAverageWindow - s.lightReadIndex := by
    rw [List.length_drop, h1]
  rw [List.drop_left' hd, List.take_left' hd, List.take_append_drop]

theorem readings2_eq_rot (s : ControllerState) (h : WinInv s) :
    s.lightReadings2
      = (rot2 s).drop (lightAverageWindow - s.lightReadIndex)
        ++ (rot2 s).take (lightAverageWindow - s.lightReadIndex) := by
  obtain ⟨h1, h2, hi⟩ := h
  unfold rot2
  have hd : (s.lightReadings2.drop s.lightReadIndex).length
      = lightAverageWindow - s.lightReadIndex := by
    rw [List.length_drop, h2]
  rw [List.drop_left' hd, List.take_left' hd, List.take_append_drop]

theorem window_append_drop (A B : List Int) (k : Nat)
    (hA : A.length = lightAverageWindow) :
    (A ++ B).drop (lightAverageWindow + k) = B.drop k ∧
    ((A ++ B).take (lightAverageWindow + k)).sum = A.sum + (B.take k).sum := by
  have hsub : lightAverageWindow + k - A.length = k := by rw [hA]; omega
  constructor
  · rw [List.drop_append_eq_append_drop, hsub,
      List.drop_eq_nil_of_le (by rw [hA]; omega)]
    simp
  · rw [List.take_append_eq_append_take, hsub,
      List.take_of_length_le (by rw [hA]; omega), List.sum_append]

/-! Claim theorems. -/

/-- C3: for every filter state and every input sample, one insert
(`updateLightAverage`, per channel) subtracts the value currently occupying
the cursor slot from the running sum, overwrites that slot with the new
sample, adds the new sample to the running sum, advances the cursor modulo
the window size, and returns the running sum divided by the window size with
truncating integer division. -/
theorem C3_insert_step (s : ControllerState) (v1 v2 : Int)
    (h1 : s.lightReadIndex < s.lightReadings1.length)
    (h2 : s.lightReadIndex < s.lightReadings2.length) :
    (updateLightAverage s v1 v2).lightTotalValue1
      = s.lightTotalValue1 - s.lightReadings1.get ⟨s.lightReadIndex, h1⟩ + v1 ∧
    (updateLightAverage s v1 v2).lightReadings1
      = s.lightReadings1.set s.lightReadIndex v1 ∧
    (updateLightAverage s v1 v2).lightTotalValue2
      = s.lightTotalValue2 - s.lightReadings2.get ⟨s.lightReadIndex, h2⟩ + v2 ∧
    (updateLightAverage s v1 v2).lightReadings2
      = s.lightReadings2.set s.lightReadIndex v2 ∧
    (updateLightAverage s v1 v2).lightReadIndex
      = (s.lightReadIndex + 1) % lightAverageWindow ∧
    (updateLightAverage s v1 v2).smoothedLight1
      = Int.tdiv (updateLightAverage s v1 v2).lightTotalValue1
          (lightAverageWindow : Int) ∧
    (updateLightAverage s v1 v2).smoothedLight2
      = Int.tdiv (updateLightAverage s v1 v2).lightTotalValue2
          (lightAverageWindow : Int) := by
  refine ⟨?_, rfl, ?_, rfl, rfl, rfl, rfl⟩
  · rw [update_total1_eq, List.getD_eq_getElem _ _ h1, List.get_eq_getElem]
  · rw [update_total2_eq, List.getD_eq_getElem _ _ h2, List.get_eq_getElem]

/-- C3 witness: the insert contract evaluated at a concrete state and input. -/
theorem C3_insert_step_witness :
    (updateLightAverage initialState 5 7).lightTotalValue1
      = initialState.lightTotalValue1
        - initialState.lightReadings1.get ⟨initialState.lightReadIndex, by decide⟩ + 5 ∧
    (updateLightAverage initialState 5 7).lightReadings1
      = initialState.lightReadings1.set initialState.lightReadIndex 5 :=
  ⟨(C3_insert_step initialState 5 7 (by decide) (by decide)).1,
   (C3_insert_step initialState 5 7 (by decide) (by decide)).2.1⟩

/-- C4: the per-channel filter invariant (running sum equals the exact sum of
the buffer contents, buffer of exactly `lightAverageWindow` entries) holds
after reset and is preserved by every insert. -/
theorem C4_invariant_reset_and_insert :
    (∀ s : ControllerState, filterInv (initializeLightAverage s)) ∧
    (∀ (s : ControllerState) (v1 v2 : Int),
      filterInv s → filterInv (updateLightAverage s v1 v2)) := by
  constructor
  · intro s
    refine ⟨⟨?_, ?_, ?_⟩, ?_, ?_⟩
    · show (List.replicate lightAverageWindow (0 : Int)).length = lightAverageWindow
      simp
    · show (List.replicate lightAverageWindow (0 : Int)).length = lightAverageWindow
      simp
    · show 0 < lightAverageWindow
      decide
    · show (0 : Int) = (List.replicate lightAverageWindow (0 : Int)).sum
      simp
    · show (0 : Int) = (List.replicate lightAverageWindow (0 : Int)).sum
      simp
  · intro s v1 v2 h
    exact filterInv_update s v1 v2 h

/-- C4 witness: the invariant holds at the startup state and is preserved by
a concrete insert. -/
theorem C4_invariant_witness :
    filterInv initialState ∧ filterInv (updateLightAverage initialState 3 4) :=
  ⟨C4_invariant_reset_and_insert.1 _,
   C4_invariant_reset_and_insert.2 initialState 3 4 (by decide)⟩

/-- C5 counterexample: the claim promises `floor(sum/N)` for any inserted
values, but the code divides with truncation toward zero; inserting `-15`
into the freshly reset filter returns `-1`, while `floor(-15/10) = -2`. -/
theorem C5_floor_counterexample :
    ¬ ((updateLightAverage initialState (-15) 0).smoothedLight1
        = Int.fdiv ((updateLightAverage initialState (-15) 0).lightReadings1.sum)
            (lightAverageWindow : Int)) := by decide

/-- C5 (amended): after each insert the returned smoothed value equals the
sum of the buffer's current contents divided by the window size with
truncation toward zero; when every buffer entry is non-negative this agrees
with `floor(sum/N)`. -/
theorem C5_truncated_average (s : ControllerState) (v1 v2 : Int)
    (h : filterInv s) :
    ((updateLightAverage s v1 v2).smoothedLight1
      = Int.tdiv ((updateLightAverage s v1 v2).lightReadings1.sum)
          (lightAverageWindow : Int) ∧
     (updateLightAverage s v1 v2).smoothedLight2
      = Int.tdiv ((updateLightAverage s v1 v2).lightReadings2.sum)
          (lightAverageWindow : Int)) ∧
    ((∀ x ∈ (updateLightAverage s v1 v2).lightReadings1, 0 ≤ x) →
      (updateLightAverage s v1 v2).smoothedLight1
        = Int.fdiv ((updateLightAverage s v1 v2).lightReadings1.sum)
            (lightAverageWindow : Int)) ∧
    ((∀ x ∈ (updateLightAverage s v1 v2).lightReadings2, 0 ≤ x) →
      (updateLightAverage s v1 v2).smoothedLight2
        = Int.fdiv ((updateLightAverage s v1 v2).lightReadings2.sum)
            (lightAverageWindow : Int)) := by
  obtain ⟨hw, ht1, ht2⟩ := filterInv_update s v1 v2 h
  have e1 : (updateLightAverage s v1 v2).smoothedLight1
      = Int.tdiv (updateLightAverage s v1 v2).lightTotalValue1
          (lightAverageWindow : Int) := rfl
  have e2 : (updateLightAverage s v1 v2).smoothedLight2
      = Int.tdiv (updateLightAverage s v1 v2).lightTotalValue2
          (lightAverageWindow : Int) := rfl
  refine ⟨⟨by rw [e1, ht1], by rw [e2, ht2]⟩, ?_, ?_⟩
  · intro hpos
    have hsum : 0 ≤ (updateLightAverage s v1 v2).lightReadings1.sum :=
      List.sum_nonneg hpos
    rw [e1, ht1, Int.fdiv_eq_ediv _ (by decide),
      Int.tdiv_eq_ediv hsum (by decide)]
  · intro hpos
    have hsum : 0 ≤ (updateLightAverage s v1 v2).lightReadings2.sum :=
      List.sum_nonneg hpos
    rw [e2, ht2, Int.fdiv_eq_ediv _ (by decide),
      Int.tdiv_eq_ediv hsum (by decide)]

/-- C5 witness: the amended statement evaluated at the startup state with a
concrete insert, including the non-negative floor case. -/
theorem C5_truncated_average_witness :
    (updateLightAverage initialState 5 7).smoothedLight1
      = Int.tdiv ((updateLightAverage initialState 5 7).lightReadings1.sum)
          (lightAverageWindow : Int) ∧
    (updateLightAverage initialState 5 7).smoothedLight1
      = Int.fdiv ((updateLightAverage initialState 5 7).lightReadings1.sum)
          (lightAverageWindow : Int) :=
  ⟨(C5_truncated_average initialState 5 7 (by decide)).1.1,
   (C5_truncated_average initialState 5 7 (by decide)).2.1 (by decide)⟩

/-- C9: both channels share the single write cursor `lightReadIndex`; one
combined update acts on each channel exactly as the independent per-channel
filter's `insert`, and the two projected cursors are always equal. -/
theorem C9_shared_cursor_lockstep (s : ControllerState) (v1 v2 : Int) :
    chan1 (updateLightAverage s v1 v2) = (chan1 s).insert v1 ∧
    chan2 (updateLightAverage s v1 v2) = (chan2 s).insert v2 ∧
    (chan1 (updateLightAverage s v1 v2)).index
      = (chan2 (updateLightAverage s v1 v2)).index ∧
    (chan1 s).index = (chan2 s).index :=
  ⟨rfl, rfl, rfl, rfl⟩

/-- C1: on every serviced tick the classifier compares the absolute
difference of the two freshly smoothed values against the threshold: within
the dead band (boundary included) it stores Neutral (0), above the band it
stores Up (1) when the left smoothed value is larger and Down (2) when it is
smaller; in particular smoothed pairs (700,500), (500,700) and (520,500)
yield 1, 2 and 0 respectively with threshold 50. -/
theorem C1_classification :
    (∀ (s : ControllerState) (now : Nat) (r1 r2 : Int), servicedAt s now →
      ((|(updateLightAverage s r1 r2).smoothedLight1
          - (updateLightAverage s r1 r2).smoothedLight2| ≤ equalityThreshold →
        (handleInput s now r1 r2).currentMovement = 0) ∧
       (equalityThreshold < |(updateLightAverage s r1 r2).smoothedLight1
          - (updateLightAverage s r1 r2).smoothedLight2| ∧
        (updateLightAverage s r1 r2).smoothedLight2
          < (updateLightAverage s r1 r2).smoothedLight1 →
        (handleInput s now r1 r2).currentMovement = 1) ∧
       (equalityThreshold < |(updateLightAverage s r1 r2).smoothedLight1
          - (updateLightAverage s r1 r2).smoothedLight2| ∧
        (updateLightAverage s r1 r2).smoothedLight1
          < (updateLightAverage s r1 r2).smoothedLight2 →
        (handleInput s now r1 r2).currentMovement = 2))) ∧
    (handleInput (constState 700 500) 50 700 500).currentMovement = 1 ∧
    (handleInput (constState 500 700) 50 500 700).currentMovement = 2 ∧
    (handleInput (constState 520 500) 50 520 500).currentMovement = 0 := by
  refine ⟨?_, by decide, by decide, by decide⟩
  intro s now r1 r2 hserv
  have hm : (handleInput s now r1 r2).currentMovement
      = (if |(updateLightAverage s r1 r2).smoothedLight1
              - (updateLightAverage s r1 r2).smoothedLight2| ≤ equalityThreshold
           then (0 : Int)
         else if (updateLightAverage s r1 r2).smoothedLight1
                  > (updateLightAverage s r1 r2).smoothedLight2
           then 1 else 2) := by
    have hserv' : lightReadInterval ≤ usub32 now s.lastLightReadTime := hserv
    unfold handleInput
    rw [if_pos hserv']
    rfl
  refine ⟨?_, ?_, ?_⟩
  · intro hle
    rw [hm, if_pos hle]
  · intro hgt
    rw [hm, if_neg (by omega), if_pos hgt.2]
  · intro hlt
    rw [hm, if_neg (by omega), if_neg (by omega)]

/-- C1 witness: a serviced tick on concrete states, one per movement code. -/
theorem C1_classification_witness :
    (handleInput (constState 700 500) 120 700 500).currentMovement = 1 ∧
    (handleInput (constState 500 700) 120 500 700).currentMovement = 2 ∧
    (handleInput (constState 520 500) 120 520 500).currentMovement = 0 :=
  ⟨(C1_classification.1 (constState 700 500) 120 700 500 (by decide)).2.1
     (by decide),
   (C1_classification.1 (constState 500 700) 120 500 700 (by decide)).2.2
     (by decide),
   (C1_classification.1 (constState 520 500) 120 520 500 (by decide)).1
     (by decide)⟩

/-- C2: a tick inside the minimum interval is a complete no-op: the returned
state (movement code, both buffers, sums, cursor, smoothed values, raw
values, timestamp) is exactly the input state; consequently of two tick
calls less than the interval apart, the second changes nothing. -/
theorem C2_gate_noop :
    (∀ (s : ControllerState) (now : Nat) (r1 r2 : Int),
      usub32 now s.lastLightReadTime < lightReadInterval →
      handleInput s now r1 r2 = s) ∧
    (∀ (s : ControllerState) (n1 n2 : Nat) (r1 r2 r3 r4 : Int),
      servicedAt s n1 → usub32 n2 n1 < lightReadInterval →
      handleInput (handleInput s n1 r1 r2) n2 r3 r4
        = handleInput s n1 r1 r2) := by
  constructor
  · intro s now r1 r2 h
    unfold handleInput
    rw [if_neg (by omega)]
  · intro s n1 n2 r1 r2 r3 r4 hs h2
    have hlt : (handleInput s n1 r1 r2).lastLightReadTime = n1 := by
      have hs' : lightReadInterval ≤ usub32 n1 s.lastLightReadTime := hs
      unfold handleInput
      rw [if_pos hs']
    generalize handleInput s n1 r1 r2 = t at hlt ⊢
    unfold handleInput
    rw [if_neg (by rw [hlt]; omega)]

/-- C2 witness: a gated tick at the startup state, and a serviced tick
followed by a too-early tick. -/
theorem C2_gate_noop_witness :
    handleInput initialState 30 999 999 = initialState ∧
    handleInput (handleInput initialState 60 999 888) 80 5 6
      = handleInput initialState 60 999 888 :=
  ⟨C2_gate_noop.1 initialState 30 999 999 (by decide),
   C2_gate_noop.2 initialState 60 80 999 888 5 6 (by decide) (by decide)⟩

/-- C8: the classifier is memoryless in its own output: two states that
differ only in the stored movement code produce the same new movement code
on a serviced tick with the same time and raw inputs. -/
theorem C8_memoryless (s : ControllerState) (m : Int) (now : Nat)
    (r1 r2 : Int) (h : servicedAt s now) :
    (handleInput { s with currentMovement := m } now r1 r2).currentMovement
      = (handleInput s now r1 r2).currentMovement := by
  have h' : lightReadInterval ≤ usub32 now s.lastLightReadTime := h
  unfold handleInput
  dsimp only
  rw [if_pos h', if_pos h']
  rfl

/-- C8 witness: changing only the stored movement code of the startup state
does not change the classification of a serviced tick. -/
theorem C8_memoryless_witness :
    (handleInput { initialState with currentMovement := 2 } 55 600 100).currentMovement
      = (handleInput initialState 55 600 100).currentMovement :=
  C8_memoryless initialState 2 55 600 100 (by decide)

/-- C10: the tick gate uses unsigned 32-bit subtraction: it passes exactly
when the elapsed time `(now - last) mod 2^32` is at least the minimum
interval, so the test stays well defined across timestamp wraparound; a
passing gate stores `now` as the new timestamp and a failing gate leaves the
state untouched. -/
theorem C10_wraparound_gate :
    (∀ now last : Nat,
      (lightReadInterval ≤ usub32 now last ↔
        (lightReadInterval : Int) ≤ ((now : Int) - (last : Int)) % (2 ^ 32 : Int))) ∧
    (∀ (s : ControllerState) (now : Nat) (r1 r2 : Int),
      lightReadInterval ≤ usub32 now s.lastLightReadTime →
        (handleInput s now r1 r2).lastLightReadTime = now) ∧
    (∀ (s : ControllerState) (now : Nat) (r1 r2 : Int),
      usub32 now s.lastLightReadTime < lightReadInterval →
        handleInput s now r1 r2 = s) := by
  refine ⟨?_, ?_, ?_⟩
  · intro a b
    unfold usub32 UINT32 lightReadInterval
    have h32 : ((2 : Int) ^ 32) = 4294967296 := by norm_num
    rw [h32]
    constructor <;> intro h <;> omega
  · intro s now r1 r2 h
    unfold handleInput
    rw [if_pos h]
  · intro s now r1 r2 h
    unfold handleInput
    rw [if_neg (by omega)]

/-- C10 witness: with `last` near the top of the 32-bit range and `now`
wrapped past zero, 50 ms of modular elapsed time services the tick. -/
theorem C10_wraparound_gate_witness :
    (lightReadInterval ≤ usub32 30 4294967276 ↔
      (lightReadInterval : Int) ≤ ((30 : Int) - (4294967276 : Int)) % (2 ^ 32 : Int)) ∧
    (handleInput { initialState with lastLightReadTime := 4294967276 } 30 1 2).lastLightReadTime
      = 30 :=
  ⟨C10_wraparound_gate.1 30 4294967276,
   C10_wraparound_gate.2.1 { initialState with lastLightReadTime := 4294967276 }
     30 1 2 (by decide)⟩

/-- C6: inserting the same pair of constants into a freshly reset filter
exactly `lightAverageWindow` times makes the smoothed output of the last
insert equal to the constant, exactly, on each channel. -/
theorem C6_convergence (s : ControllerState) (v w : Int) :
    (insertSeq (initializeLightAverage s)
        (List.replicate lightAverageWindow (v, w))).smoothedLight1 = v ∧
    (insertSeq (initializeLightAverage s)
        (List.replicate lightAverageWindow (v, w))).smoothedLight2 = w := by
  have hW0 : WinInv (initializeLightAverage s) := by
    refine ⟨?_, ?_, ?_⟩
    · show (List.replicate lightAverageWindow (0 : Int)).length = lightAverageWindow
      simp
    · show (List.replicate lightAverageWindow (0 : Int)).length = lightAverageWindow
      simp
    · show 0 < lightAverageWindow
      decide
  obtain ⟨_, _, _, _, ht1, ht2, _, _, _, _⟩ :=
    insertSeq_spec (List.replicate lightAverageWindow (v, w))
      (initializeLightAverage s) hW0
  have hrot1 : rot1 (initializeLightAverage s)
      = List.replicate lightAverageWindow 0 := by
    show (List.replicate lightAverageWindow (0 : Int)).drop 0
        ++ (List.replicate lightAverageWindow (0 : Int)).take 0
      = List.replicate lightAverageWindow 0
    simp
  have hrot2 : rot2 (initializeLightAverage s)
      = List.replicate lightAverageWindow 0 := by
    show (List.replicate lightAverageWindow (0 : Int)).drop 0
        ++ (List.replicate lightAverageWindow (0 : Int)).take 0
      = List.replicate lightAverageWindow 0
    simp
  have hne : List.replicate lightAverageWindow ((v, w)) ≠ [] :=
    List.ne_nil_of_length_pos (by rw [List.length_replicate]; decide)
  obtain ⟨hs1, hs2⟩ :=
    insertSeq_smoothed (List.replicate lightAverageWindow (v, w))
      (initializeLightAverage s) hne
  have h01 : (initializeLightAverage s).lightTotalValue1 = 0 := rfl
  have h02 : (initializeLightAverage s).lightTotalValue2 = 0 := rfl
  rw [hrot1, List.map_replicate, List.length_replicate, h01,
    List.take_left' (List.length_replicate _ _), List.sum_replicate,
    List.sum_replicate] at ht1
  rw [hrot2, List.map_replicate, List.length_replicate, h02,
    List.take_left' (List.length_replicate _ _), List.sum_replicate,
    List.sum_replicate] at ht2
  constructor
  · rw [hs1, ht1]
    simp only [nsmul_eq_mul, smul_zero, mul_zero, sub_zero, zero_add]
    exact Int.mul_tdiv_cancel_left v (by decide)
  · rw [hs2, ht2]
    simp only [nsmul_eq_mul, smul_zero, mul_zero, sub_zero, zero_add]
    exact Int.mul_tdiv_cancel_left w (by decide)

/-- C7: for any start state with well-formed buffers, two insertion
sequences of length `window + k` (k ≥ 1) that agree on their last `window`
pairs drive the controller into the same state — in particular the same
smoothed outputs — and the buffer history after the run is exactly the last
`window` inserted samples per channel in temporal order. -/
theorem C7_last_window_determines (k : Nat) (s : ControllerState)
    (xs ys : List (Int × Int)) (hk : 1 ≤ k) (hW : WinInv s)
    (hx : xs.length = lightAverageWindow + k)
    (hy : ys.length = lightAverageWindow + k)
    (hagree : xs.drop k = ys.drop k) :
    insertSeq s xs = insertSeq s ys ∧
    rot1 (insertSeq s xs) = (xs.map Prod.fst).drop k ∧
    rot2 (insertSeq s xs) = (xs.map Prod.snd).drop k := by
  obtain ⟨hWx, hr1x, hr2x, hix, ht1x, ht2x, hmx, hv1x, hv2x, hltx⟩ :=
    insertSeq_spec xs s hW
  obtain ⟨hWy, hr1y, hr2y, hiy, ht1y, ht2y, hmy, hv1y, hv2y, hlty⟩ :=
    insertSeq_spec ys s hW
  have hA1 : (rot1 s).length = lightAverageWindow := by
    rw [rot1_length]; exact hW.1
  have hA2 : (rot2 s).length = lightAverageWindow := by
    rw [rot2_length]; exact hW.2.1
  have hd1x : rot1 (insertSeq s xs) = (xs.map Prod.fst).drop k := by
    rw [hr1x, hx, (window_append_drop (rot1 s) (xs.map Prod.fst) k hA1).1]
  have hd2x : rot2 (insertSeq s xs) = (xs.map Prod.snd).drop k := by
    rw [hr2x, hx, (window_append_drop (rot2 s) (xs.map Prod.snd) k hA2).1]
  have hd1y : rot1 (insertSeq s ys) = (ys.map Prod.fst).drop k := by
    rw [hr1y, hy, (window_append_drop (rot1 s) (ys.map Prod.fst) k hA1).1]
  have hd2y : rot2 (insertSeq s ys) = (ys.map Prod.snd).drop k := by
    rw [hr2y, hy, (window_append_drop (rot2 s) (ys.map Prod.snd) k hA2).1]
  have haf : (xs.map Prod.fst).drop k = (ys.map Prod.fst).drop k := by
    rw [← List.map_drop, ← List.map_drop, hagree]
  have has : (xs.map Prod.snd).drop k = (ys.map Prod.snd).drop k := by
    rw [← List.map_drop, ← List.map_drop, hagree]
  have htot1x : (insertSeq s xs).lightTotalValue1
      = s.lightTotalValue1 - (rot1 s).sum + ((xs.map Prod.fst).drop k).sum := by
    rw [ht1x, hx, (window_append_drop (rot1 s) (xs.map Prod.fst) k hA1).2]
    have h := List.sum_take_add_sum_drop (xs.map Prod.fst) k
    omega
  have htot1y : (insertSeq s ys).lightTotalValue1
      = s.lightTotalValue1 - (rot1 s).sum + ((ys.map Prod.fst).drop k).sum := by
    rw [ht1y, hy, (window_append_drop (rot1 s) (ys.map Prod.fst) k hA1).2]
    have h := List.sum_take_add_sum_drop (ys.map Prod.fst) k
    omega
  have htot2x : (insertSeq s xs).lightTotalValue2
      = s.lightTotalValue2 - (rot2 s).sum + ((xs.map Prod.snd).drop k).sum := by
    rw [ht2x, hx, (window_append_drop (rot2 s) (xs.map Prod.snd) k hA2).2]
    have h := List.sum_take_add_sum_drop (xs.map Prod.snd) k
    omega
  have htot2y : (insertSeq s ys).lightTotalValue2
      = s.lightTotalValue2 - (rot2 s).sum + ((ys.map Prod.snd).drop k).sum := by
    rw [ht2y, hy, (window_append_drop (rot2 s) (ys.map Prod.snd) k hA2).2]
    have h := List.sum_take_add_sum_drop (ys.map Prod.snd) k
    omega
  have htot1 : (insertSeq s xs).lightTotalValue1
      = (insertSeq s ys).lightTotalValue1 := by
    rw [htot1x, htot1y, haf]
  have htot2 : (insertSeq s xs).lightTotalValue2
      = (insertSeq s ys).lightTotalValue2 := by
    rw [htot2x, htot2y, has]
  have hidx : (insertSeq s xs).lightReadIndex
      = (insertSeq s ys).lightReadIndex := by
    rw [hix, hiy, hx, hy]
  have hrot1eq : rot1 (insertSeq s xs) = rot1 (insertSeq s ys) := by
    rw [hd1x, hd1y]; exact haf
  have hrot2eq : rot2 (insertSeq s xs) = rot2 (insertSeq s ys) := by
    rw [hd2x, hd2y]; exact has
  have hb1 : (insertSeq s xs).lightReadings1
      = (insertSeq s ys).lightReadings1 := by
    rw [readings1_eq_rot _ hWx, readings1_eq_rot _ hWy, hrot1eq, hidx]
  have hb2 : (insertSeq s xs).lightReadings2
      = (insertSeq s ys).lightReadings2 := by
    rw [readings2_eq_rot _ hWx, readings2_eq_rot _ hWy, hrot2eq, hidx]
  have hxne : xs ≠ [] := List.ne_nil_of_length_pos (by omega)
  have hyne : ys ≠ [] := List.ne_nil_of_length_pos (by omega)
  obtain ⟨hsm1x, hsm2x⟩ := insertSeq_smoothed xs s hxne
  obtain ⟨hsm1y, hsm2y⟩ := insertSeq_smoothed ys s hyne
  have hsm1 : (insertSeq s xs).smoothedLight1
      = (insertSeq s ys).smoothedLight1 := by
    rw [hsm1x, hsm1y, htot1]
  have hsm2 : (insertSeq s xs).smoothedLight2
      = (insertSeq s ys).smoothedLight2 := by
    rw [hsm2x, hsm2y, htot2]
  refine ⟨?_, hd1x, hd2x⟩
  exact ControllerState.ext (hmx.trans hmy.symm) (hv1x.trans hv1y.symm)
    (hv2x.trans hv2y.symm) hsm1 hsm2 (hltx.trans hlty.symm) hb1 hb2 hidx
    htot1 htot2

/-- C7 witness: two 11-step runs from the startup state differing only in
their first inserted pair end in the same state. -/
theorem C7_last_window_witness :
    insertSeq initialState ((9, 9) :: List.replicate lightAverageWindow (7, 3))
      = insertSeq initialState ((0, 5) :: List.replicate lightAverageWindow (7, 3)) :=
  (C7_last_window_determines 1 initialState
    ((9, 9) :: List.replicate lightAverageWindow (7, 3))
    ((0, 5) :: List.replicate lightAverageWindow (7, 3))
    (by decide) (by decide) (by decide) (by decide) (by decide)).1
